import Mathlib

/-!
Verification development for the RlSmartGrid substrate node-mapping core.

The Python source is shallowly embedded:
* numeric values (CPU capacities, bandwidths, delays, probabilities) are
  modelled as rationals (`Rat`), exact arithmetic standing in for Python
  numbers;
* the BFS of `FeatureExtractor.get_distance_correlation` is a fuel-indexed
  loop with fuel `num_nodes`, which bounds the number of dequeues (each node
  is enqueued at most once, at the moment it is marked visited);
* Python exceptions are modelled with `Except`: `ValueError` raised by
  `map_virtual_node` when no node is eligible, `ZeroDivisionError` raised by
  the normalisation when the eligible probabilities sum to zero, and
  `IndexError` raised when an eligible index lies outside the probability
  vector;
* the neural scoring network is the pluggable `policy` argument, a function
  from the 5-column feature rows to a probability vector, exactly the data
  `map_virtual_node` feeds it;
* the single random draw of `random.choices` is abstracted by an oracle
  `pick : Nat`; the drawn element is `eligible_nodes[pick % len]`, which
  ranges over exactly the values `random.choices` can return.
-/

namespace RlSmartGrid

/-- A physical (substrate) node, as loaded from `physical_network.json`:
an identifier, a mutable CPU capacity and a static security level. -/
structure PhysNode where
  id : String
  cpu_capacity : Rat
  security_level : Rat
deriving DecidableEq, Repr

/-- A physical link between two node indices, with static bandwidth and
delay (the integer indices are already parsed out of the endpoint names). -/
structure PLink where
  source : Nat
  target : Nat
  bandwidth : Rat
  delay : Rat
deriving DecidableEq, Repr

/-- One row of the node-feature matrix built by
`FeatureExtractor.get_node_features_matrix`: the dictionary with keys
`Node`, `CPU Resources`, `Adjacent Bandwidth`, `Distance Correlation`,
`Time Correlation`, `Security`. -/
structure NodeFeature where
  node : String
  cpuResources : Rat
  adjacentBandwidth : Rat
  distanceCorrelation : Rat
  timeCorrelation : Rat
  security : Rat
deriving DecidableEq, Repr

/-- A virtual node of a virtual network request. -/
structure VirtualNode where
  node : String
  cpu_req : Rat
  safety_req : Rat
deriving DecidableEq, Repr

/-- Embedding of `FeatureExtractor.build_adjacency_list`: the neighbour list of node `i`,
accumulated link by link; for each link, the source appends the target and
then the target appends the source, exactly the two `append` calls of the
Python loop. -/
def build_adjacency_list (physical_links : List PLink) : Nat → List Nat :=
  fun i =>
    physical_links.foldl
      (fun acc link =>
        acc ++ (if link.source = i then [link.target] else [])
            ++ (if link.target = i then [link.source] else []))
      []

/-- Embedding of `FeatureExtractor.get_node_computing_resources`: the CPU capacities. -/
def get_node_computing_resources (physical_nodes : List PhysNode) : List Rat :=
  physical_nodes.map (fun nd => nd.cpu_capacity)

/-- Embedding of `FeatureExtractor.get_adjacent_link_bandwidth`: per node, the sum of the
bandwidths of all incident links, accumulated link by link. -/
def get_adjacent_link_bandwidth (physical_nodes : List PhysNode)
    (physical_links : List PLink) : List Rat :=
  physical_links.foldl
    (fun adj_bandwidth link =>
      let a1 := adj_bandwidth.set link.source
        (adj_bandwidth.getD link.source 0 + link.bandwidth)
      a1.set link.target (a1.getD link.target 0 + link.bandwidth))
    (List.replicate physical_nodes.length 0)

/-- Embedding of `FeatureExtractor.get_node_security`: the security levels. -/
def get_node_security (physical_nodes : List PhysNode) : List Rat :=
  physical_nodes.map (fun nd => nd.security_level)

/-- One neighbour step of the BFS inner loop: an unvisited neighbour is
marked visited, its distance set to `distance[current] + 1`, and it is
enqueued at the back; a visited neighbour is skipped.  The accumulator is
`(visited, distance, queue)`. -/
def bfsVisit (dcur : Nat) (acc : List Bool × List Nat × List Nat)
    (neighbor : Nat) : List Bool × List Nat × List Nat :=
  if acc.1.getD neighbor false then acc
  else
    (acc.1.set neighbor true,
     acc.2.1.set neighbor (dcur + 1),
     acc.2.2 ++ [neighbor])

/-- The BFS `while queue:` loop of `get_distance_correlation`.  The fuel
bounds the number of dequeues; `num_nodes` dequeues always suffice because a
node is enqueued only at the moment it is marked visited. -/
def bfsLoop (adjacency : Nat → List Nat) :
    Nat → List Nat → List Bool → List Nat → List Bool × List Nat
  | 0, _, visited, distance => (visited, distance)
  | _ + 1, [], visited, distance => (visited, distance)
  | fuel + 1, current :: rest, visited, distance =>
    let dcur := distance.getD current 0
    let r := (adjacency current).foldl (bfsVisit dcur) (visited, distance, rest)
    bfsLoop adjacency fuel r.2.2 r.1 r.2.1

/-- Breadth-first shortest distances from node `k`, exactly as initialised in
`get_distance_correlation`: `visited = [False]*n` with `visited[k] = True`,
`distance = [0]*n`, `queue = [k]`.  Returns the final `(visited, distance)`
pair.  Unreachable nodes keep `visited = false` and `distance = 0`. -/
def shortestDistances (adjacency : Nat → List Nat) (num_nodes : Nat)
    (k : Nat) : List Bool × List Nat :=
  bfsLoop adjacency num_nodes [k]
    ((List.replicate num_nodes false).set k true)
    (List.replicate num_nodes 0)

/-- Embedding of `FeatureExtractor.get_distance_correlation`: for each node `k`, the
average of `distance[m]` over the mapped nodes `m ≠ k` (all occurrences,
reachable or not), and `0.0` when that list is empty. -/
def get_distance_correlation (physical_nodes : List PhysNode)
    (adjacency : Nat → List Nat) (mapped_nodes : List Nat) : List Rat :=
  (List.range physical_nodes.length).map (fun k =>
    let distance := (shortestDistances adjacency physical_nodes.length k).2
    let mapped_distances :=
      (mapped_nodes.filter (fun m => m != k)).map (fun m => distance.getD m 0)
    if mapped_distances.isEmpty then 0
    else (mapped_distances.sum : Rat) / (mapped_distances.length : Rat))

/-- Embedding of `FeatureExtractor.get_time_correlation`: per node, total incident delay
divided by incident link count, `0.0` for isolated nodes. -/
def get_time_correlation (physical_nodes : List PhysNode)
    (physical_links : List PLink) : List Rat :=
  let n := physical_nodes.length
  let acc := physical_links.foldl
    (fun (acc : List Rat × List Nat) link =>
      let t1 := acc.1.set link.source (acc.1.getD link.source 0 + link.delay)
      let t2 := t1.set link.target (t1.getD link.target 0 + link.delay)
      let c1 := acc.2.set link.source (acc.2.getD link.source 0 + 1)
      let c2 := c1.set link.target (c1.getD link.target 0 + 1)
      (t2, c2))
    (List.replicate n 0, List.replicate n 0)
  (List.range n).map (fun i =>
    if 0 < acc.2.getD i 0 then acc.1.getD i 0 / (acc.2.getD i 0 : Rat) else 0)

/-- Embedding of `FeatureExtractor.get_node_features_matrix`: combine the five feature
columns into one record per node, in node-index order. -/
def get_node_features_matrix (physical_nodes : List PhysNode)
    (physical_links : List PLink) (mapped_nodes : List Nat) :
    List NodeFeature :=
  let cpu_resources := get_node_computing_resources physical_nodes
  let adj_bandwidth := get_adjacent_link_bandwidth physical_nodes physical_links
  let security := get_node_security physical_nodes
  let adjacency := build_adjacency_list physical_links
  let distance_corr := get_distance_correlation physical_nodes adjacency mapped_nodes
  let time_corr := get_time_correlation physical_nodes physical_links
  (List.range physical_nodes.length).map (fun idx =>
    { node := "node_" ++ toString idx
      cpuResources := cpu_resources.getD idx 0
      adjacentBandwidth := adj_bandwidth.getD idx 0
      distanceCorrelation := distance_corr.getD idx 0
      timeCorrelation := time_corr.getD idx 0
      security := security.getD idx 0 })

/-- The Python exceptions that can escape `map_virtual_node`. -/
inductive MapError where
  | indexError
  | noEligible
  | zeroDivision
deriving DecidableEq, Repr

/-- The 5-element row handed to the scoring network for one node, in the
order hard-coded in `map_virtual_node`. -/
def featureRow (f : NodeFeature) : List Rat :=
  [f.cpuResources, f.adjacentBandwidth, f.distanceCorrelation,
   f.timeCorrelation, f.security]

/-- The eligibility loop of `map_virtual_node`: walk the features in index
order; a node with `CPU Resources >= requirement` contributes its index and
`probabilities[idx]` (an out-of-range access raises `IndexError`, as in
Python). -/
def eligLoop : List NodeFeature → List Rat → Rat → Nat →
    Except MapError (List Nat × List Rat)
  | [], _, _, _ => .ok ([], [])
  | f :: fs, probabilities, req, idx =>
    if req ≤ f.cpuResources then
      match probabilities[idx]? with
      | none => .error .indexError
      | some p =>
        match eligLoop fs probabilities req (idx + 1) with
        | .error e => .error e
        | .ok (ns, ps) => .ok (idx :: ns, p :: ps)
    else eligLoop fs probabilities req (idx + 1)

/-- The renormalisation of `map_virtual_node`:
`[prob / total_prob for prob in eligible_probs]`. -/
def normalizeProbs (eligible_probs : List Rat) : List Rat :=
  eligible_probs.map (fun prob => prob / eligible_probs.sum)

/-- Embedding of `map_virtual_node` from `node_policy_net.py`.  The scoring network is the
pluggable `policy`; the single `random.choices` draw is abstracted by the
oracle `pick`, the drawn element being `eligible_nodes[pick % len]`.  The
Python control flow is kept: raise `ValueError` when no node is eligible;
compute `total_prob` and raise `ZeroDivisionError` when it is zero (there is
no uniform fallback); otherwise normalise and draw.  Returns the full
probability vector and the selected physical node index. -/
def map_virtual_node (node_features : List NodeFeature)
    (policy : List (List Rat) → List Rat)
    (virtual_node_cpu_requirement : Rat) (pick : Nat) :
    Except MapError (List Rat × Nat) :=
  let probabilities := policy (node_features.map featureRow)
  match eligLoop node_features probabilities virtual_node_cpu_requirement 0 with
  | .error e => .error e
  | .ok (eligible_nodes, eligible_probs) =>
    if eligible_nodes.isEmpty then .error .noEligible
    else
      let total_prob := eligible_probs.sum
      if total_prob = 0 then .error .zeroDivision
      else
        let weights := normalizeProbs eligible_probs
        let selected_node := eligible_nodes.getD (pick % eligible_nodes.length) 0
        .ok (probabilities, selected_node)

/-- The capacity update of `main`: subtract, then clamp at zero
(`cpu_capacity -= req; if cpu_capacity < 0: cpu_capacity = 0`).  The spec
calls this operation `deductCapacity`. -/
def deductCapacity (nodes : List PhysNode) (idx : Nat) (amount : Rat) :
    List PhysNode :=
  match nodes[idx]? with
  | none => nodes
  | some nd =>
    let c := nd.cpu_capacity - amount
    nodes.set idx { nd with cpu_capacity := if c < 0 then 0 else c }

/-- The mutable state threaded through the `for v_node in ...` loop of
`main`: the physical nodes, the feature matrix computed before the loop,
the mapped-node list and the committed mapping results. -/
structure SessionState where
  physical_nodes : List PhysNode
  node_features : List NodeFeature
  mapped_nodes : List Nat
  mapping_results : List (String × String)
deriving DecidableEq, Repr

/-- The state before the loop of `main`: the feature matrix is computed once
with `mapped_nodes = []` and then only patched, never recomputed. -/
def initSession (physical_nodes : List PhysNode)
    (physical_links : List PLink) : SessionState :=
  { physical_nodes := physical_nodes
    node_features := get_node_features_matrix physical_nodes physical_links []
    mapped_nodes := []
    mapping_results := [] }

/-- One iteration of the loop of `main` for virtual node `v`: call
`map_virtual_node`; on success record the mapping, deduct the capacity,
patch the `CPU Resources` entry of the selected row and append the index to
`mapped_nodes`; a `ValueError` (no eligible node) is caught and leaves the
state untouched; any other exception propagates and aborts. -/
def sessionStep (policy : List (List Rat) → List Rat) (pick : Nat)
    (st : SessionState) (v : VirtualNode) : Except MapError SessionState :=
  match map_virtual_node st.node_features policy v.cpu_req pick with
  | .error .noEligible => .ok st
  | .error e => .error e
  | .ok (_probabilities, selected_node_idx) =>
    let selected_id := ((st.physical_nodes.map (fun nd => nd.id)).getD
      selected_node_idx "")
    let nodes2 := deductCapacity st.physical_nodes selected_node_idx v.cpu_req
    let features2 :=
      match nodes2[selected_node_idx]?, st.node_features[selected_node_idx]? with
      | some nd, some f =>
        st.node_features.set selected_node_idx
          { f with cpuResources := nd.cpu_capacity }
      | _, _ => st.node_features
    .ok { physical_nodes := nodes2
          node_features := features2
          mapped_nodes := st.mapped_nodes ++ [selected_node_idx]
          mapping_results := st.mapping_results ++ [(v.node, selected_id)] }

/-- The loop of `main` over the virtual nodes, consuming one oracle pick per
step. -/
def runLoop (policy : List (List Rat) → List Rat) :
    List VirtualNode → List Nat → SessionState → Except MapError SessionState
  | [], _, st => .ok st
  | v :: vs, picks, st =>
    match sessionStep policy (picks.headD 0) st v with
    | .error e => .error e
    | .ok st2 => runLoop policy vs picks.tail st2

/-- A whole session of `main`: features computed once up front, then the
loop over the virtual nodes. -/
def runSession (policy : List (List Rat) → List Rat) (picks : List Nat)
    (physical_nodes : List PhysNode) (physical_links : List PLink)
    (virtual_nodes : List VirtualNode) : Except MapError SessionState :=
  runLoop policy virtual_nodes picks (initSession physical_nodes physical_links)

/-- The unmapped-virtual-node computation at the end of `main`: the names of
virtual nodes of the request that appear in no committed mapping (the Python
set difference, here as an order-preserving filter with the same
membership). -/
def unmapped_virtual_nodes (mapping_results : List (String × String))
    (virtual_nodes : List VirtualNode) : List String :=
  (virtual_nodes.map (fun v => v.node)).filter
    (fun nm => !((mapping_results.map Prod.fst).contains nm))

/-- The Distance Correlation value described by the spec for node `k`: the
average BFS hop distance from `k` to the mapped nodes other than `k`, and
`0.0` when there are none.  Stated over the same BFS as the code so that the
code column can be proved equal to it. -/
def avgMappedDistance (adjacency : Nat → List Nat) (num_nodes : Nat)
    (k : Nat) (mapped_nodes : List Nat) : Rat :=
  let distance := (shortestDistances adjacency num_nodes k).2
  let ds := (mapped_nodes.filter (fun m => m != k)).map (fun m => distance.getD m 0)
  if ds.isEmpty then 0 else (ds.sum : Rat) / (ds.length : Rat)

/-- Modelled from the spec (section 4.1): the Distance Correlation policy the
spec describes for a disconnected graph — unreachable nodes carry a sentinel
and are excluded from the average.  Exclusion is expressed through the BFS
visited flags, which are false exactly on the unreachable nodes.  Used only
to compare the code behaviour against the spec wording. -/
def distCorrExcludingUnreachable (physical_nodes : List PhysNode)
    (adjacency : Nat → List Nat) (mapped_nodes : List Nat) : List Rat :=
  (List.range physical_nodes.length).map (fun k =>
    let r := shortestDistances adjacency physical_nodes.length k
    let ds := ((mapped_nodes.filter (fun m => m != k)).filter
        (fun m => r.1.getD m false)).map (fun m => r.2.getD m 0)
    if ds.isEmpty then 0 else (ds.sum : Rat) / (ds.length : Rat))

/-- Concrete 3-node path substrate 0 - 1 - 2 with ample capacities. -/
def exNodes : List PhysNode :=
  [⟨"Node_0", 50, 1⟩, ⟨"Node_1", 50, 1⟩, ⟨"Node_2", 50, 1⟩]

/-- The two links of the concrete path substrate. -/
def exLinks : List PLink := [⟨0, 1, 10, 1⟩, ⟨1, 2, 10, 1⟩]

/-- A policy that scores every node of a 3-node substrate equally. -/
def uniPolicy : List (List Rat) → List Rat := fun _ => [1, 1, 1]

/-- Concrete disconnected substrate: nodes 0 and 1 joined by one link,
node 2 isolated. -/
def dNodes : List PhysNode :=
  [⟨"Node_0", 10, 1⟩, ⟨"Node_1", 10, 1⟩, ⟨"Node_2", 10, 1⟩]

/-- The single link of the disconnected substrate. -/
def dLinks : List PLink := [⟨0, 1, 1, 1⟩]

/-- The substrate of the spec eligibility example: capacities 10, 5, 20. -/
def c3Nodes : List PhysNode :=
  [⟨"Node_0", 10, 1⟩, ⟨"Node_1", 5, 1⟩, ⟨"Node_2", 20, 1⟩]

/-- A one-row feature matrix with CPU capacity 10. -/
def oneFeature : List NodeFeature := [⟨"node_0", 10, 0, 0, 0, 0⟩]

/-- A policy returning the all-zero score vector for one node. -/
def zeroPolicy : List (List Rat) → List Rat := fun _ => [0]

/-- A contract-violating policy: entries sum to 3/2, far from 1. -/
def halfPolicy : List (List Rat) → List Rat := fun _ => [1/2, 1/2, 1/2]

/-- A contract-violating policy: a negative entry (the sum is 2). -/
def negPolicy : List (List Rat) → List Rat := fun _ => [-1, 2, 1]

/-- A single substrate node with capacity 10 and no links. -/
def oneNode : List PhysNode := [⟨"Node_0", 10, 1⟩]

/-- A policy returning the singleton score vector. -/
def onePolicy : List (List Rat) → List Rat := fun _ => [1]

/-- A single substrate node with capacity 20, enough for two requests of 5. -/
def bigNode : List PhysNode := [⟨"Node_0", 20, 1⟩]

/-- The session invariant that the `CPU Resources` feature column equals the
current CPU capacities of the physical nodes — `main` maintains it by
patching the selected row after every deduction, so the eligibility filter
(which reads the feature) tests the current capacity. -/
def FeatureSync (st : SessionState) : Prop :=
  st.node_features.map (fun f => f.cpuResources) =
    st.physical_nodes.map (fun nd => nd.cpu_capacity)

/-! ### Helper lemmas about the eligibility loop and selection -/

/-- Membership in the eligible index list returned by `eligLoop`: exactly the
positions (shifted by the running index) whose feature row meets the CPU
requirement. -/
theorem eligLoop_mem : ∀ {fs : List NodeFeature} {probs : List Rat} {req : Rat}
    {idx : Nat} {ns : List Nat} {ps : List Rat},
    eligLoop fs probs req idx = Except.ok (ns, ps) →
    ∀ i, i ∈ ns ↔ ∃ j f, fs[j]? = some f ∧ req ≤ f.cpuResources ∧ i = idx + j := by
  intro fs
  induction fs with
  | nil =>
    intro probs req idx ns ps h i
    simp only [eligLoop, Except.ok.injEq, Prod.mk.injEq] at h
    obtain ⟨hns, hps⟩ := h
    subst hns
    simp
  | cons f fs ih =>
    intro probs req idx ns ps h i
    rw [eligLoop] at h
    by_cases hc : req ≤ f.cpuResources
    · rw [if_pos hc] at h
      cases hp : probs[idx]? with
      | none => rw [hp] at h; cases h
      | some p =>
        rw [hp] at h
        cases he : eligLoop fs probs req (idx + 1) with
        | error e => rw [he] at h; cases h
        | ok r =>
          obtain ⟨ns1, ps1⟩ := r
          rw [he] at h
          simp only [Except.ok.injEq, Prod.mk.injEq] at h
          obtain ⟨hns, hps⟩ := h
          subst hns
          have hrec := ih he
          constructor
          · intro hi
            rcases List.mem_cons.mp hi with hi | hi
            · exact ⟨0, f, by simp, hc, by omega⟩
            · obtain ⟨j, g, hg, hcg, hij⟩ := (hrec i).mp hi
              exact ⟨j + 1, g, by simpa using hg, hcg, by omega⟩
          · rintro ⟨j, g, hg, hcg, hij⟩
            cases j with
            | zero =>
              have : i = idx := by omega
              subst this
              exact List.mem_cons_self _ _
            | succ j =>
              have hg2 : fs[j]? = some g := by simpa using hg
              exact List.mem_cons_of_mem _ ((hrec i).mpr ⟨j, g, hg2, hcg, by omega⟩)
    · rw [if_neg hc] at h
      have hrec := ih h
      constructor
      · intro hi
        obtain ⟨j, g, hg, hcg, hij⟩ := (hrec i).mp hi
        exact ⟨j + 1, g, by simpa using hg, hcg, by omega⟩
      · rintro ⟨j, g, hg, hcg, hij⟩
        cases j with
        | zero =>
          have hg2 : f = g := by simpa using hg
          exact absurd (hg2 ▸ hcg) hc
        | succ j =>
          exact (hrec i).mpr ⟨j, g, by simpa using hg, hcg, by omega⟩

/-- Success of `eligLoop`: it succeeds whenever every eligible position lies inside the
probability vector. -/
theorem eligLoop_ok_exists : ∀ {fs : List NodeFeature} {probs : List Rat}
    {req : Rat} {idx : Nat},
    (∀ j f, fs[j]? = some f → req ≤ f.cpuResources → idx + j < probs.length) →
    ∃ ns ps, eligLoop fs probs req idx = Except.ok (ns, ps) := by
  intro fs
  induction fs with
  | nil => exact fun _ => ⟨[], [], rfl⟩
  | cons f fs ih =>
    intro probs req idx hb
    by_cases hc : req ≤ f.cpuResources
    · have hidx : idx < probs.length := by
        have := hb 0 f (by simp) hc
        omega
      obtain ⟨ns, ps, he⟩ := @ih probs req (idx + 1) (fun j g hg hcg => by
        have := hb (j + 1) g (by simpa using hg) hcg
        omega)
      refine ⟨idx :: ns, probs[idx] :: ps, ?_⟩
      rw [eligLoop, if_pos hc, List.getElem?_eq_getElem hidx, he]
    · obtain ⟨ns, ps, he⟩ := @ih probs req (idx + 1) (fun j g hg hcg => by
        have := hb (j + 1) g (by simpa using hg) hcg
        omega)
      rw [eligLoop, if_neg hc]
      exact ⟨ns, ps, he⟩

/-- When no feature row meets the requirement, `eligLoop` returns the empty
eligible subset. -/
theorem eligLoop_empty : ∀ {fs : List NodeFeature} {probs : List Rat}
    {req : Rat} {idx : Nat},
    (∀ f ∈ fs, f.cpuResources < req) → eligLoop fs probs req idx = Except.ok ([], []) := by
  intro fs
  induction fs with
  | nil => exact fun _ => rfl
  | cons f fs ih =>
    intro probs req idx h
    rw [eligLoop, if_neg (not_le.mpr (h f (List.mem_cons_self f fs)))]
    exact ih fun g hg => h g (List.mem_cons_of_mem f hg)

/-- The modular `getD` access used to model the weighted draw stays inside
the list. -/
theorem getD_mod_mem {l : List Nat} (h : l ≠ []) (pick d : Nat) :
    l.getD (pick % l.length) d ∈ l := by
  have hlen : 0 < l.length := List.length_pos.mpr h
  have hm : pick % l.length < l.length := Nat.mod_lt _ hlen
  rw [List.getD_eq_getElem?_getD, List.getElem?_eq_getElem hm]
  exact List.getElem_mem hm

/-- Inversion of a successful `map_virtual_node` call: the eligibility loop
succeeded with a non-empty subset whose probabilities have non-zero sum, the
returned vector is the raw policy output, and the selected node is the
modular draw from the eligible list. -/
theorem map_virtual_node_ok {fs : List NodeFeature}
    {policy : List (List Rat) → List Rat} {req : Rat} {pick : Nat}
    {probs : List Rat} {sel : Nat}
    (h : map_virtual_node fs policy req pick = Except.ok (probs, sel)) :
    ∃ ns ps, eligLoop fs (policy (fs.map featureRow)) req 0 = Except.ok (ns, ps) ∧
      ns ≠ [] ∧ ps.sum ≠ 0 ∧ probs = policy (fs.map featureRow) ∧
      sel = ns.getD (pick % ns.length) 0 := by
  rw [map_virtual_node] at h
  cases he : eligLoop fs (policy (fs.map featureRow)) req 0 with
  | error e => rw [he] at h; cases h
  | ok r =>
    obtain ⟨ns, ps⟩ := r
    rw [he] at h
    by_cases hne : ns.isEmpty
    · simp [hne] at h
    · rw [Bool.not_eq_true] at hne
      simp only [hne, Bool.false_eq_true, if_false] at h
      by_cases hz : ps.sum = 0
      · simp [hz] at h
      · rw [if_neg hz] at h
        simp only [Except.ok.injEq, Prod.mk.injEq] at h
        obtain ⟨hp, hs⟩ := h
        exact ⟨ns, ps, rfl, fun hnil => by simp [hnil] at hne, hz, hp.symm, hs.symm⟩

/-- Summing a list divided pointwise by a constant. -/
theorem list_sum_div (l : List Rat) (c : Rat) :
    (l.map (fun x => x / c)).sum = l.sum / c := by
  induction l with
  | nil => simp
  | cons a l ih => simp [ih, add_div]

/-- The renormalised eligible probabilities sum to exactly 1 whenever their
raw sum is non-zero. -/
theorem normalizeProbs_sum {ps : List Rat} (h : ps.sum ≠ 0) :
    (normalizeProbs ps).sum = 1 := by
  rw [normalizeProbs, list_sum_div, div_self h]

/-- The feature matrix always has one row per physical node. -/
theorem get_node_features_matrix_length (physical_nodes : List PhysNode)
    (physical_links : List PLink) (mapped_nodes : List Nat) :
    (get_node_features_matrix physical_nodes physical_links mapped_nodes).length =
      physical_nodes.length := by
  simp [get_node_features_matrix]

/-- The feature matrix computed before the loop satisfies the sync
invariant: its `CPU Resources` column is exactly the capacity column of the
physical nodes. -/
theorem featureSync_init (physical_nodes : List PhysNode)
    (physical_links : List PLink) :
    FeatureSync (initSession physical_nodes physical_links) := by
  rw [FeatureSync, initSession]
  dsimp only
  apply List.ext_getElem?
  intro i
  by_cases hi : i < physical_nodes.length
  · rw [get_node_features_matrix]
    simp only [List.getElem?_map, List.getElem?_range hi, Option.map_some,
      get_node_computing_resources, List.getD_eq_getElem?_getD,
      List.getElem?_eq_getElem hi]
    simp [List.getElem?_eq_getElem hi]
  · have h1 : physical_nodes.length ≤ i := not_lt.mp hi
    rw [List.getElem?_eq_none, List.getElem?_eq_none]
    · simpa using h1
    · simpa [get_node_features_matrix_length] using h1

/-- Every successful session step preserves the sync invariant: the step
patches the `CPU Resources` entry of the selected row with the freshly deducted
capacity. -/
theorem featureSync_step {policy : List (List Rat) → List Rat} {pick : Nat}
    {st st2 : SessionState} {v : VirtualNode}
    (h : sessionStep policy pick st v = Except.ok st2) (hs : FeatureSync st) :
    FeatureSync st2 := by
  rw [FeatureSync] at hs ⊢
  rw [sessionStep] at h
  cases hm : map_virtual_node st.node_features policy v.cpu_req pick with
  | error e =>
    rw [hm] at h
    cases e with
    | noEligible =>
      simp only [Except.ok.injEq] at h
      rw [← h]
      exact hs
    | indexError => cases h
    | zeroDivision => cases h
  | ok r =>
    obtain ⟨probs, sel⟩ := r
    rw [hm] at h
    simp only [Except.ok.injEq] at h
    rw [← h]
    dsimp only
    have hlen : st.node_features.length = st.physical_nodes.length := by
      have h2 := congrArg List.length hs
      simpa using h2
    by_cases hsel : sel < st.physical_nodes.length
    · have hnd0 : st.physical_nodes[sel]? = some (st.physical_nodes.get ⟨sel, hsel⟩) :=
        List.getElem?_eq_getElem hsel
      have hf0 : st.node_features[sel]? =
          some (st.node_features.get ⟨sel, by omega⟩) :=
        List.getElem?_eq_getElem (by omega)
      have hded : deductCapacity st.physical_nodes sel v.cpu_req =
          st.physical_nodes.set sel
            { st.physical_nodes.get ⟨sel, hsel⟩ with
              cpu_capacity :=
                if (st.physical_nodes.get ⟨sel, hsel⟩).cpu_capacity - v.cpu_req < 0
                then 0
                else (st.physical_nodes.get ⟨sel, hsel⟩).cpu_capacity - v.cpu_req } := by
        rw [deductCapacity, hnd0]
      have hdedsel : (deductCapacity st.physical_nodes sel v.cpu_req)[sel]? =
          some { st.physical_nodes.get ⟨sel, hsel⟩ with
            cpu_capacity :=
              if (st.physical_nodes.get ⟨sel, hsel⟩).cpu_capacity - v.cpu_req < 0
              then 0
              else (st.physical_nodes.get ⟨sel, hsel⟩).cpu_capacity - v.cpu_req } := by
        rw [hded, List.getElem?_set_self (by simpa using hsel)]
      rw [hdedsel, hf0, hded, List.map_set, List.map_set, hs]
    · have hnone : st.physical_nodes[sel]? = none :=
        List.getElem?_eq_none (not_lt.mp hsel)
      have hded : deductCapacity st.physical_nodes sel v.cpu_req =
          st.physical_nodes := by
        rw [deductCapacity, hnone]
      rw [hded, hnone]
      exact hs

/-! ### Claim C3: eligibility filter and selection -/

/-- Claim C3: for every mapping step, the eligible subset computed by
`map_virtual_node` is exactly the set of physical nodes whose `CPU
Resources` feature meets the virtual CPU requirement, and the selected node
is always drawn from that subset — a node below the requirement is never
selected.  The `CPU Resources` feature column in turn always equals the
current `cpu_capacity` column: the invariant holds initially and is
preserved by every session step. -/
theorem claim_C3 :
    (∀ (fs : List NodeFeature) (policy : List (List Rat) → List Rat)
      (req : Rat) (pick : Nat) (probs : List Rat) (sel : Nat),
      map_virtual_node fs policy req pick = Except.ok (probs, sel) →
      ∃ ns ps, eligLoop fs (policy (fs.map featureRow)) req 0 = Except.ok (ns, ps) ∧
        (∀ i, i ∈ ns ↔ ∃ f, fs[i]? = some f ∧ req ≤ f.cpuResources) ∧
        sel ∈ ns ∧ ∃ f, fs[sel]? = some f ∧ req ≤ f.cpuResources)
    ∧ (∀ (physical_nodes : List PhysNode) (physical_links : List PLink),
      FeatureSync (initSession physical_nodes physical_links))
    ∧ (∀ (policy : List (List Rat) → List Rat) (pick : Nat)
      (st st2 : SessionState) (v : VirtualNode),
      sessionStep policy pick st v = Except.ok st2 →
      FeatureSync st → FeatureSync st2) := by
  refine ⟨?_, featureSync_init, fun policy pick st st2 v h hs => featureSync_step h hs⟩
  intro fs policy req pick probs sel h
  obtain ⟨ns, ps, he, hne, _hz, _hp, hs⟩ := map_virtual_node_ok h
  have hmem := eligLoop_mem he
  have hiff : ∀ i, i ∈ ns ↔ ∃ f, fs[i]? = some f ∧ req ≤ f.cpuResources := by
    intro i
    rw [hmem i]
    constructor
    · rintro ⟨j, g, hg, hcg, hij⟩
      have hij2 : i = j := by omega
      exact ⟨g, hij2 ▸ hg, hcg⟩
    · rintro ⟨g, hg, hcg⟩
      exact ⟨i, g, hg, hcg, by omega⟩
  have hselmem : sel ∈ ns := hs ▸ getD_mod_mem hne pick 0
  exact ⟨ns, ps, he, hiff, hselmem, (hiff sel).mp hselmem⟩

/-- Witness for claim C3 at the spec example: substrate capacities
10, 5, 20 and a requirement of 8.  The eligible subset is exactly indices
0 and 2, and the engine selects node 0, whose capacity 10 meets the
requirement. -/
theorem claim_C3_witness :
    ∃ ns ps,
      eligLoop (get_node_features_matrix c3Nodes [] [])
        (uniPolicy ((get_node_features_matrix c3Nodes [] []).map featureRow)) 8 0 =
        Except.ok (ns, ps) ∧
      (∀ i, i ∈ ns ↔ ∃ f, (get_node_features_matrix c3Nodes [] [])[i]? = some f ∧
        8 ≤ f.cpuResources) ∧
      (0 : Nat) ∈ ns ∧
      ∃ f, (get_node_features_matrix c3Nodes [] [])[0]? = some f ∧ 8 ≤ f.cpuResources := by
  have h : map_virtual_node (get_node_features_matrix c3Nodes [] []) uniPolicy 8 0 =
      Except.ok ([1, 1, 1], 0) := by
    norm_num [map_virtual_node, eligLoop, featureRow, normalizeProbs,
      get_node_features_matrix, get_distance_correlation, shortestDistances,
      bfsLoop, bfsVisit, build_adjacency_list, get_node_computing_resources,
      get_adjacent_link_bandwidth, get_node_security, get_time_correlation,
      uniPolicy, c3Nodes, List.getD, List.range_succ, List.replicate]
  exact claim_C3.1 _ _ _ _ _ _ h

/-! ### Claim C2: renormalisation and the zero-sum case -/

/-- Counterexample to claim C2: with a single eligible node whose score is
exactly 0, the engine does not fall back to a uniform distribution over the
eligible subset — the division by the zero sum raises (modelled as the
`zeroDivision` error), so no mapping is produced at all. -/
theorem claim_C2_counterexample :
    map_virtual_node oneFeature zeroPolicy 5 0 = Except.error MapError.zeroDivision := by
  norm_num [map_virtual_node, eligLoop, featureRow, oneFeature, zeroPolicy]

/-- Claim C2 as amended: when the eligible subset is non-empty the engine
renormalises by dividing each eligible probability by their sum — the
renormalised weights sum to exactly 1 whenever that sum is non-zero — but
there is no fallback for an all-zero eligible subset: a zero sum raises a
`ZeroDivisionError` and the step produces no mapping. -/
theorem claim_C2_amended {fs : List NodeFeature}
    {policy : List (List Rat) → List Rat} {req : Rat} (pick : Nat)
    {ns : List Nat} {ps : List Rat}
    (he : eligLoop fs (policy (fs.map featureRow)) req 0 = Except.ok (ns, ps))
    (hne : ns ≠ []) :
    (ps.sum = 0 → map_virtual_node fs policy req pick = Except.error MapError.zeroDivision)
    ∧ (ps.sum ≠ 0 → map_virtual_node fs policy req pick =
        Except.ok (policy (fs.map featureRow), ns.getD (pick % ns.length) 0))
    ∧ (ps.sum ≠ 0 → (normalizeProbs ps).sum = 1) := by
  have hempty : ns.isEmpty = false := by
    cases ns with
    | nil => exact absurd rfl hne
    | cons a l => rfl
  refine ⟨fun hz => ?_, fun hz => ?_, fun hz => normalizeProbs_sum hz⟩
  · rw [map_virtual_node, he]
    simp [hempty, hz]
  · rw [map_virtual_node, he]
    simp [hempty, hz]

/-- Witness for the amended claim C2: one node of capacity 10, requirement 5,
score vector `[2]`.  The zero-sum branch is vacuous, the non-zero branch
returns node 0, and the renormalised weights sum to 1. -/
theorem claim_C2_amended_witness :
    (((2 : Rat) :: []).sum = 0 →
      map_virtual_node oneFeature (fun _ => [2]) 5 0 = Except.error MapError.zeroDivision)
    ∧ (((2 : Rat) :: []).sum ≠ 0 →
      map_virtual_node oneFeature (fun _ => [2]) 5 0 =
        Except.ok ((fun _ : List (List Rat) => [(2 : Rat)]) (oneFeature.map featureRow),
          ([0] : List Nat).getD (0 % ([0] : List Nat).length) 0))
    ∧ (((2 : Rat) :: []).sum ≠ 0 → (normalizeProbs ((2 : Rat) :: [])).sum = 1) :=
  claim_C2_amended 0
    (by norm_num [eligLoop, featureRow, oneFeature])
    (by simp)

/-! ### Claim C8: no score-vector validation -/

/-- Counterexample to claim C8: the engine never raises an
`InvalidScoreVector` error.  A policy whose output sums to 3/2 (far from 1)
and a policy with a negative entry are both accepted unchecked, and the
engine returns a mapping decision instead of aborting. -/
theorem claim_C8_counterexample :
    map_virtual_node (get_node_features_matrix exNodes exLinks []) halfPolicy 1 0 =
      Except.ok ([1/2, 1/2, 1/2], 0)
    ∧ map_virtual_node (get_node_features_matrix exNodes exLinks []) negPolicy 1 0 =
      Except.ok ([-1, 2, 1], 0) := by
  constructor <;>
    norm_num [map_virtual_node, eligLoop, featureRow, normalizeProbs,
      get_node_features_matrix, get_distance_correlation, shortestDistances,
      bfsLoop, bfsVisit, build_adjacency_list, get_node_computing_resources,
      get_adjacent_link_bandwidth, get_node_security, get_time_correlation,
      halfPolicy, negPolicy, exNodes, exLinks, List.getD, List.range_succ,
      List.replicate]

/-- Claim C8 as amended: `map_virtual_node` performs no validation of the
score vector.  Whenever at least one node is eligible, every eligible index
lies inside the returned vector, and the eligible entries do not sum to
zero, the engine returns a mapping decision built from the raw policy
output — regardless of negative entries or of a sum far from 1.  No
`InvalidScoreVector` error exists in the engine. -/
theorem claim_C8_amended {fs : List NodeFeature}
    {policy : List (List Rat) → List Rat} {req : Rat} (pick : Nat)
    (h1 : ∃ (i : Nat) (f : NodeFeature), fs[i]? = some f ∧ req ≤ f.cpuResources)
    (h2 : ∀ (i : Nat) (f : NodeFeature), fs[i]? = some f → req ≤ f.cpuResources →
      i < (policy (fs.map featureRow)).length)
    (h3 : ∀ (ns : List Nat) (ps : List Rat),
      eligLoop fs (policy (fs.map featureRow)) req 0 = Except.ok (ns, ps) →
      ps.sum ≠ 0) :
    ∃ sel, map_virtual_node fs policy req pick =
        Except.ok (policy (fs.map featureRow), sel) ∧
      ∃ f, fs[sel]? = some f ∧ req ≤ f.cpuResources := by
  obtain ⟨ns, ps, he⟩ := @eligLoop_ok_exists fs (policy (fs.map featureRow)) req 0
    (fun j f hj hc => by
      have := h2 j f hj hc
      omega)
  have hmem := eligLoop_mem he
  have hne : ns ≠ [] := by
    obtain ⟨i, f, hif, hcf⟩ := h1
    exact List.ne_nil_of_mem ((hmem i).mpr ⟨i, f, hif, hcf, by omega⟩)
  have hempty : ns.isEmpty = false := by
    cases ns with
    | nil => exact absurd rfl hne
    | cons a l => rfl
  have hz := h3 ns ps he
  refine ⟨ns.getD (pick % ns.length) 0, ?_, ?_⟩
  · rw [map_virtual_node, he]
    simp [hempty, hz]
  · have hselmem : ns.getD (pick % ns.length) 0 ∈ ns := getD_mod_mem hne pick 0
    obtain ⟨j, g, hg, hcg, hij⟩ := (hmem _).mp hselmem
    have hj : ns.getD (pick % ns.length) 0 = j := by omega
    exact ⟨g, hj ▸ hg, hcg⟩

/-- Witness for the amended claim C8: the sum-3/2 policy on the path
substrate — the engine returns a decision (node 0) built from the raw,
contract-violating vector. -/
theorem claim_C8_amended_witness :
    ∃ sel, map_virtual_node (get_node_features_matrix exNodes exLinks []) halfPolicy 1 0 =
        Except.ok (halfPolicy ((get_node_features_matrix exNodes exLinks []).map featureRow),
          sel) ∧
      ∃ f, (get_node_features_matrix exNodes exLinks [])[sel]? = some f ∧
        (1 : Rat) ≤ f.cpuResources := by
  have hlen : (get_node_features_matrix exNodes exLinks []).length = 3 := by
    simp [get_node_features_matrix_length, exNodes]
  have hev : eligLoop (get_node_features_matrix exNodes exLinks [])
      (halfPolicy ((get_node_features_matrix exNodes exLinks []).map featureRow)) 1 0 =
      Except.ok ([0, 1, 2], [1/2, 1/2, 1/2]) := by
    norm_num [eligLoop, featureRow, get_node_features_matrix,
      get_distance_correlation, shortestDistances, bfsLoop, bfsVisit,
      build_adjacency_list, get_node_computing_resources,
      get_adjacent_link_bandwidth, get_node_security, get_time_correlation,
      halfPolicy, exNodes, exLinks, List.getD, List.range_succ, List.replicate]
  apply claim_C8_amended 0
  · have hm := eligLoop_mem hev 0
    have h0 : (0 : Nat) ∈ [0, 1, 2] := by simp
    obtain ⟨j, g, hg, hcg, _⟩ := hm.mp h0
    exact ⟨j, g, hg, hcg⟩
  · intro i f hif _
    have hi : i < 3 := hlen ▸ (List.getElem?_eq_some.mp hif).1
    simpa [halfPolicy] using hi
  · intro ns ps h
    rw [hev] at h
    simp only [Except.ok.injEq, Prod.mk.injEq] at h
    obtain ⟨_, hps⟩ := h
    subst hps
    norm_num

/-! ### Helper lemmas for the BFS distance computation -/

/-- Reading with `getD` after `set` at a different index. -/
theorem getD_set_ne {α : Type} (l : List α) {i j : Nat} (a d : α) (h : i ≠ j) :
    (l.set i a).getD j d = l.getD j d := by
  rw [List.getD_eq_getElem?_getD, List.getElem?_set_ne h, List.getD_eq_getElem?_getD]

/-- Reading with `getD` after `set` at the same, in-range index. -/
theorem getD_set_self {α : Type} (l : List α) {i : Nat} (a d : α)
    (h : i < l.length) : (l.set i a).getD i d = a := by
  rw [List.getD_eq_getElem?_getD, List.getElem?_set_self h]
  rfl

/-- One BFS neighbour step preserves the invariant that visited and distance
lists have equal length and every unvisited node has distance 0. -/
theorem bfsVisit_inv (dcur : Nat) (acc : List Bool × List Nat × List Nat)
    (nb : Nat) (hlen : acc.1.length = acc.2.1.length)
    (hP : ∀ m, acc.1.getD m false = false → acc.2.1.getD m 0 = 0) :
    (bfsVisit dcur acc nb).1.length = (bfsVisit dcur acc nb).2.1.length ∧
    ∀ m, (bfsVisit dcur acc nb).1.getD m false = false →
      (bfsVisit dcur acc nb).2.1.getD m 0 = 0 := by
  obtain ⟨vis, dist, queue⟩ := acc
  simp only at hlen hP
  rw [bfsVisit]
  by_cases hv : vis.getD nb false
  · rw [if_pos hv]
    exact ⟨hlen, hP⟩
  · rw [if_neg hv]
    refine ⟨by simp [hlen], ?_⟩
    intro m hm
    by_cases hmn : m = nb
    · subst hmn
      by_cases hlt : m < vis.length
      · rw [getD_set_self vis true false hlt] at hm
        cases hm
      · have h1 : vis.set m true = vis := List.set_eq_of_length_le (by omega)
        have h2 : dist.set m (dcur + 1) = dist := List.set_eq_of_length_le (by omega)
        rw [h2]
        rw [h1] at hm
        exact hP m hm
    · have hnm : nb ≠ m := fun h => hmn h.symm
      rw [getD_set_ne vis true false hnm] at hm
      rw [getD_set_ne dist (dcur + 1) 0 hnm]
      exact hP m hm

/-- Folding the BFS neighbour step over a neighbour list preserves the
invariant. -/
theorem bfs_foldl_inv (dcur : Nat) : ∀ (nbs : List Nat)
    (acc : List Bool × List Nat × List Nat),
    acc.1.length = acc.2.1.length →
    (∀ m, acc.1.getD m false = false → acc.2.1.getD m 0 = 0) →
    (nbs.foldl (bfsVisit dcur) acc).1.length =
      (nbs.foldl (bfsVisit dcur) acc).2.1.length ∧
    ∀ m, (nbs.foldl (bfsVisit dcur) acc).1.getD m false = false →
      (nbs.foldl (bfsVisit dcur) acc).2.1.getD m 0 = 0 := by
  intro nbs
  induction nbs with
  | nil => exact fun acc h1 h2 => ⟨h1, h2⟩
  | cons nb nbs ih =>
    intro acc h1 h2
    obtain ⟨h1s, h2s⟩ := bfsVisit_inv dcur acc nb h1 h2
    simpa using ih (bfsVisit dcur acc nb) h1s h2s

/-- The BFS loop preserves the invariant: on exit, every node still
unvisited has distance 0 (the initialisation value). -/
theorem bfsLoop_inv (adjacency : Nat → List Nat) : ∀ (fuel : Nat)
    (queue : List Nat) (visited : List Bool) (distance : List Nat),
    visited.length = distance.length →
    (∀ m, visited.getD m false = false → distance.getD m 0 = 0) →
    ∀ m, (bfsLoop adjacency fuel queue visited distance).1.getD m false = false →
      (bfsLoop adjacency fuel queue visited distance).2.getD m 0 = 0 := by
  intro fuel
  induction fuel with
  | zero =>
    intro queue visited distance _ h2 m hm
    rw [bfsLoop] at hm ⊢
    exact h2 m hm
  | succ fuel ih =>
    intro queue visited distance h1 h2
    cases queue with
    | nil =>
      intro m hm
      rw [bfsLoop] at hm ⊢
      exact h2 m hm
    | cons current rest =>
      rw [bfsLoop]
      obtain ⟨h1s, h2s⟩ :=
        bfs_foldl_inv (distance.getD current 0) (adjacency current)
          (visited, distance, rest) h1 h2
      exact ih _ _ _ h1s h2s

/-- In the BFS of `get_distance_correlation`, a node left unvisited
(unreachable from the start node) keeps distance 0: there is no sentinel. -/
theorem shortestDistances_unreachable (adjacency : Nat → List Nat)
    (n k m : Nat)
    (h : (shortestDistances adjacency n k).1.getD m false = false) :
    (shortestDistances adjacency n k).2.getD m 0 = 0 := by
  apply bfsLoop_inv adjacency n [k]
    ((List.replicate n false).set k true) (List.replicate n 0) _ _ m h
  · simp
  · intro m _
    rw [List.getD_eq_getElem?_getD, List.getElem?_replicate]
    split <;> rfl

/-- The entry of `get_distance_correlation` at an in-range node `k` is the
average distance to the mapped nodes other than `k`. -/
theorem get_distance_correlation_getElem? (physical_nodes : List PhysNode)
    (adjacency : Nat → List Nat) (mapped_nodes : List Nat) (k : Nat)
    (hk : k < physical_nodes.length) :
    (get_distance_correlation physical_nodes adjacency mapped_nodes)[k]? =
      some (avgMappedDistance adjacency physical_nodes.length k mapped_nodes) := by
  rw [get_distance_correlation, List.getElem?_map, List.getElem?_range hk]
  rfl

/-! ### Claim C7: the Distance Correlation feature -/

/-- Claim C7: for every in-range node `k`, the Distance Correlation feature
equals the average BFS hop distance from `k` to the mapped nodes, excluding
`k` itself, and it is exactly 0 whenever the mapped set is empty or contains
only `k`. -/
theorem claim_C7 (physical_nodes : List PhysNode) (adjacency : Nat → List Nat)
    (mapped_nodes : List Nat) (k : Nat) (hk : k < physical_nodes.length) :
    (get_distance_correlation physical_nodes adjacency mapped_nodes)[k]? =
      some (avgMappedDistance adjacency physical_nodes.length k mapped_nodes)
    ∧ (mapped_nodes = [] →
      (get_distance_correlation physical_nodes adjacency mapped_nodes)[k]? = some 0)
    ∧ (mapped_nodes = [k] →
      (get_distance_correlation physical_nodes adjacency mapped_nodes)[k]? = some 0) := by
  refine ⟨get_distance_correlation_getElem? _ _ _ _ hk, fun hmap => ?_, fun hmap => ?_⟩
  · subst hmap
    rw [get_distance_correlation_getElem? _ _ _ _ hk]
    simp [avgMappedDistance]
  · subst hmap
    rw [get_distance_correlation_getElem? _ _ _ _ hk]
    simp [avgMappedDistance]

/-- Witness for claim C7 on the disconnected substrate with mapped set
`[0]`: the entry for node 0 is defined by the average formula and is 0
because the mapped set contains only node 0 itself. -/
theorem claim_C7_witness :
    (get_distance_correlation dNodes (build_adjacency_list dLinks) [0])[0]? =
      some (avgMappedDistance (build_adjacency_list dLinks) dNodes.length 0 [0])
    ∧ (([0] : List Nat) = [] →
      (get_distance_correlation dNodes (build_adjacency_list dLinks) [0])[0]? = some 0)
    ∧ (([0] : List Nat) = [0] →
      (get_distance_correlation dNodes (build_adjacency_list dLinks) [0])[0]? = some 0) :=
  claim_C7 dNodes (build_adjacency_list dLinks) [0] 0 (by norm_num [dNodes])

/-! ### Claim C4: disconnected graphs in the BFS -/

/-- Counterexample to claim C4: on the disconnected substrate (link 0-1,
node 2 isolated) with mapped set `[1, 2]`, node 2 is unreachable from node
0, yet its distance is the plain value 0 — not an infinity sentinel — and it
is included in the Distance Correlation average: the code yields 1/2 for
node 0, while the exclusion policy described by the claim yields 1. -/
theorem claim_C4_counterexample :
    (shortestDistances (build_adjacency_list dLinks) 3 0).1.getD 2 false = false
    ∧ (shortestDistances (build_adjacency_list dLinks) 3 0).2.getD 2 0 = 0
    ∧ (get_distance_correlation dNodes (build_adjacency_list dLinks) [1, 2])[0]? =
      some (1/2)
    ∧ (distCorrExcludingUnreachable dNodes (build_adjacency_list dLinks) [1, 2])[0]? =
      some 1
    ∧ (1 : Rat)/2 ≠ 1 := by
  refine ⟨?_, ?_, ?_, ?_, by norm_num⟩ <;>
    norm_num [shortestDistances, bfsLoop, bfsVisit, build_adjacency_list,
      get_distance_correlation, distCorrExcludingUnreachable, dNodes, dLinks,
      List.getD, List.range_succ, List.replicate]

/-- Claim C4 as amended: the BFS never raises on a disconnected graph — the
distance computation is total, with one entry per node — but unreachable
nodes are left at the initialisation value 0 rather than an infinity
sentinel, and they are included in the Distance Correlation average
(contributing hop distance 0) rather than excluded. -/
theorem claim_C4_amended :
    (∀ (adjacency : Nat → List Nat) (n k m : Nat),
      (shortestDistances adjacency n k).1.getD m false = false →
      (shortestDistances adjacency n k).2.getD m 0 = 0)
    ∧ (∀ (physical_nodes : List PhysNode) (adjacency : Nat → List Nat)
        (mapped_nodes : List Nat),
      (get_distance_correlation physical_nodes adjacency mapped_nodes).length =
        physical_nodes.length)
    ∧ (∀ (physical_nodes : List PhysNode) (adjacency : Nat → List Nat)
        (mapped_nodes : List Nat) (k : Nat), k < physical_nodes.length →
      (get_distance_correlation physical_nodes adjacency mapped_nodes)[k]? =
        some (avgMappedDistance adjacency physical_nodes.length k mapped_nodes)) := by
  refine ⟨shortestDistances_unreachable, ?_, get_distance_correlation_getElem?⟩
  intro physical_nodes adjacency mapped_nodes
  simp [get_distance_correlation]

/-- Witness for the amended claim C4 on the disconnected substrate: the
unreachable node keeps distance 0, the distance-correlation list is total
with one entry per node, and the entry for node 0 is the inclusive
average. -/
theorem claim_C4_amended_witness :
    (shortestDistances (build_adjacency_list dLinks) 3 0).2.getD 2 0 = 0
    ∧ (get_distance_correlation dNodes (build_adjacency_list dLinks) [1, 2]).length =
      dNodes.length
    ∧ (get_distance_correlation dNodes (build_adjacency_list dLinks) [1, 2])[0]? =
      some (avgMappedDistance (build_adjacency_list dLinks) dNodes.length 0 [1, 2]) := by
  refine ⟨claim_C4_amended.1 (build_adjacency_list dLinks) 3 0 2 ?_,
    claim_C4_amended.2.1 dNodes (build_adjacency_list dLinks) [1, 2],
    claim_C4_amended.2.2 dNodes (build_adjacency_list dLinks) [1, 2] 0 ?_⟩
  · norm_num [shortestDistances, bfsLoop, bfsVisit, build_adjacency_list,
      dLinks, List.getD, List.replicate]
  · norm_num [dNodes]

/-! ### Helper lemmas for the session loop -/

/-- A caught `ValueError` (no eligible node) leaves the session state
untouched. -/
theorem sessionStep_noEligible {policy : List (List Rat) → List Rat}
    {pick : Nat} {st : SessionState} {v : VirtualNode}
    (h : map_virtual_node st.node_features policy v.cpu_req pick =
      Except.error MapError.noEligible) :
    sessionStep policy pick st v = Except.ok st := by
  rw [sessionStep, h]

/-- A successful session step either leaves the node list unchanged (caught
failure) or replaces it by a single capacity deduction. -/
theorem sessionStep_nodes {policy : List (List Rat) → List Rat} {pick : Nat}
    {st st2 : SessionState} {v : VirtualNode}
    (h : sessionStep policy pick st v = Except.ok st2) :
    st2.physical_nodes = st.physical_nodes ∨
    ∃ sel, st2.physical_nodes = deductCapacity st.physical_nodes sel v.cpu_req := by
  rw [sessionStep] at h
  cases hm : map_virtual_node st.node_features policy v.cpu_req pick with
  | error e =>
    rw [hm] at h
    cases e with
    | noEligible =>
      simp only [Except.ok.injEq] at h
      left
      rw [← h]
    | indexError => cases h
    | zeroDivision => cases h
  | ok r =>
    obtain ⟨probs, sel⟩ := r
    rw [hm] at h
    simp only [Except.ok.injEq] at h
    right
    exact ⟨sel, by rw [← h]⟩

/-- Deduction keeps every capacity non-negative. -/
theorem deductCapacity_nonneg {nodes : List PhysNode} {idx : Nat} {amount : Rat}
    (h : ∀ nd ∈ nodes, 0 ≤ nd.cpu_capacity) :
    ∀ nd ∈ deductCapacity nodes idx amount, 0 ≤ nd.cpu_capacity := by
  intro nd hmem
  rw [deductCapacity] at hmem
  cases hidx : nodes[idx]? with
  | none =>
    rw [hidx] at hmem
    exact h nd hmem
  | some nd0 =>
    rw [hidx] at hmem
    rcases List.mem_or_eq_of_mem_set hmem with hm | hm
    · exact h nd hm
    · subst hm
      dsimp only
      split
      · exact le_refl 0
      · linarith [not_lt.mp (by assumption : ¬nd0.cpu_capacity - amount < 0)]

/-! ### Claim C6: capacity deduction and non-negativity -/

/-- Claim C6: committing a mapping sets the capacity of the selected node to
`max 0 (capacity - cpu_req)`, and under any session step every physical
capacity stays non-negative. -/
theorem claim_C6 :
    (∀ (nodes : List PhysNode) (idx : Nat) (amount : Rat) (nd : PhysNode),
      nodes[idx]? = some nd →
      (deductCapacity nodes idx amount)[idx]? =
        some { nd with cpu_capacity := max 0 (nd.cpu_capacity - amount) })
    ∧ (∀ (policy : List (List Rat) → List Rat) (pick : Nat)
        (st st2 : SessionState) (v : VirtualNode),
      sessionStep policy pick st v = Except.ok st2 →
      (∀ nd ∈ st.physical_nodes, 0 ≤ nd.cpu_capacity) →
      ∀ nd ∈ st2.physical_nodes, 0 ≤ nd.cpu_capacity) := by
  constructor
  · intro nodes idx amount nd h
    have hlt : idx < nodes.length := (List.getElem?_eq_some.mp h).1
    rw [deductCapacity, h, List.getElem?_set_self hlt]
    have harith : (if nd.cpu_capacity - amount < 0 then 0 else nd.cpu_capacity - amount) =
        max 0 (nd.cpu_capacity - amount) := by
      rcases lt_or_le (nd.cpu_capacity - amount) 0 with hc | hc
      · simp [hc, max_eq_left hc.le]
      · simp [not_lt.mpr hc, max_eq_right hc]
    rw [harith]
  · intro policy pick st st2 v hstep hpos
    rcases sessionStep_nodes hstep with hn | ⟨sel, hn⟩
    · rw [hn]
      exact hpos
    · rw [hn]
      exact deductCapacity_nonneg hpos

/-- Witness for claim C6: deducting 8 from capacity 10 leaves exactly 2, and
deducting 15 from capacity 10 clamps to exactly 0. -/
theorem claim_C6_witness :
    (deductCapacity [⟨"Node_0", 10, 1⟩] 0 8)[0]? =
      some { id := "Node_0", cpu_capacity := max 0 ((10 : Rat) - 8), security_level := 1 }
    ∧ (deductCapacity [⟨"Node_0", 10, 1⟩] 0 15)[0]? =
      some { id := "Node_0", cpu_capacity := max 0 ((10 : Rat) - 15), security_level := 1 }
    ∧ max 0 ((10 : Rat) - 8) = 2 ∧ max 0 ((10 : Rat) - 15) = 0 :=
  ⟨claim_C6.1 [⟨"Node_0", 10, 1⟩] 0 8 ⟨"Node_0", 10, 1⟩ rfl,
   claim_C6.1 [⟨"Node_0", 10, 1⟩] 0 15 ⟨"Node_0", 10, 1⟩ rfl,
   by norm_num, by norm_num⟩

/-! ### Claim C10: a failed step is atomic -/

/-- Claim C10: when the CPU capacity of every feature row is below the virtual
requirement, the mapping call raises the caught no-eligible error and the
session step returns the input state unchanged — no capacity deduction, no
mapped-node growth, no recorded mapping. -/
theorem claim_C10 (policy : List (List Rat) → List Rat) (pick : Nat)
    (st : SessionState) (v : VirtualNode)
    (h : ∀ f ∈ st.node_features, f.cpuResources < v.cpu_req) :
    map_virtual_node st.node_features policy v.cpu_req pick =
      Except.error MapError.noEligible
    ∧ sessionStep policy pick st v = Except.ok st := by
  have he := @eligLoop_empty st.node_features
    (policy (st.node_features.map featureRow)) v.cpu_req 0 h
  have hmap : map_virtual_node st.node_features policy v.cpu_req pick =
      Except.error MapError.noEligible := by
    rw [map_virtual_node, he]
    rfl
  exact ⟨hmap, sessionStep_noEligible hmap⟩

/-- Witness for claim C10: a capacity-10 node faced with a requirement of
100 — the step returns the initial state unchanged. -/
theorem claim_C10_witness :
    map_virtual_node (initSession oneNode []).node_features onePolicy
      (100 : Rat) 0 = Except.error MapError.noEligible
    ∧ sessionStep onePolicy 0 (initSession oneNode []) ⟨"V1", 100, 1⟩ =
      Except.ok (initSession oneNode []) :=
  claim_C10 onePolicy 0 (initSession oneNode []) ⟨"V1", 100, 1⟩ (by
    norm_num [initSession, get_node_features_matrix, get_distance_correlation,
      shortestDistances, bfsLoop, bfsVisit, build_adjacency_list,
      get_node_computing_resources, get_adjacent_link_bandwidth,
      get_node_security, get_time_correlation, oneNode, List.getD,
      List.range_succ, List.replicate])

/-! ### Claim C1: the feature matrix is not recomputed between steps -/

/-- Claim C1 (code bug demonstration): on the path substrate 0-1-2, after the
first virtual node is committed to node 0, the feature matrix the session
carries into the next step still has the Distance Correlation column
`[0, 0, 0]` computed before the loop with an empty mapped set — while
recomputing `get_node_features_matrix` from the current nodes and the current
mapped set `[0]` yields `[0, 1, 2]`.  The loop of `main` never recomputes the
matrix; it only patches the CPU entry of the selected row. -/
theorem claim_C1_theorem :
    (sessionStep uniPolicy 0 (initSession exNodes exLinks)
        ⟨"Virtual_Node_1", 5, 1⟩).map (fun st => st.mapped_nodes) = Except.ok [0]
    ∧ (sessionStep uniPolicy 0 (initSession exNodes exLinks)
        ⟨"Virtual_Node_1", 5, 1⟩).map
        (fun st => st.node_features.map (fun f => f.distanceCorrelation)) =
      Except.ok [0, 0, 0]
    ∧ (sessionStep uniPolicy 0 (initSession exNodes exLinks)
        ⟨"Virtual_Node_1", 5, 1⟩).map
        (fun st => (get_node_features_matrix st.physical_nodes exLinks
          st.mapped_nodes).map (fun f => f.distanceCorrelation)) =
      Except.ok [0, 1, 2]
    ∧ ([0, 0, 0] : List Rat) ≠ [0, 1, 2] := by
  refine ⟨?_, ?_, ?_, by norm_num⟩ <;>
    norm_num [Except.map, sessionStep, initSession, map_virtual_node, eligLoop,
      featureRow, normalizeProbs, deductCapacity, get_node_features_matrix,
      get_distance_correlation, shortestDistances, bfsLoop, bfsVisit,
      build_adjacency_list, get_node_computing_resources,
      get_adjacent_link_bandwidth, get_node_security, get_time_correlation,
      uniPolicy, exNodes, exLinks, List.getD, List.range_succ, List.replicate]

/-! ### Claim C5: per-virtual-node failure is recoverable -/

/-- Claim C5: a virtual node for which no physical node is eligible is left
unmapped and the session continues.  In general the caught no-eligible error
returns the state unchanged, and concretely, a two-node request whose first
virtual node is unmappable (requirement 100 against capacity 10) finishes
with the second virtual node mapped and the first in the unmapped set. -/
theorem claim_C5 :
    (∀ (policy : List (List Rat) → List Rat) (pick : Nat) (st : SessionState)
      (v : VirtualNode),
      map_virtual_node st.node_features policy v.cpu_req pick =
        Except.error MapError.noEligible →
      sessionStep policy pick st v = Except.ok st)
    ∧ (runSession onePolicy [0, 0] oneNode [] [⟨"V1", 100, 1⟩, ⟨"V2", 5, 1⟩]).map
      (fun st => st.mapping_results) = Except.ok [("V2", "Node_0")]
    ∧ (runSession onePolicy [0, 0] oneNode [] [⟨"V1", 100, 1⟩, ⟨"V2", 5, 1⟩]).map
      (fun st => unmapped_virtual_nodes st.mapping_results
        [⟨"V1", 100, 1⟩, ⟨"V2", 5, 1⟩]) = Except.ok ["V1"] := by
  refine ⟨fun policy pick st v h => sessionStep_noEligible h, ?_, ?_⟩ <;>
    (norm_num [Except.map, runSession, runLoop, sessionStep, initSession,
      map_virtual_node, eligLoop, featureRow, normalizeProbs, deductCapacity,
      get_node_features_matrix, get_distance_correlation, shortestDistances,
      bfsLoop, bfsVisit, build_adjacency_list, get_node_computing_resources,
      get_adjacent_link_bandwidth, get_node_security, get_time_correlation,
      unmapped_virtual_nodes, onePolicy, oneNode, List.getD, List.range_succ,
      List.replicate, List.contains, List.elem]) <;> decide

/-- Witness for claim C5: the unmappable requirement 999 against the
capacity-10 node leaves the session state unchanged. -/
theorem claim_C5_witness :
    sessionStep onePolicy 0 (initSession oneNode []) ⟨"W1", 999, 1⟩ =
      Except.ok (initSession oneNode []) :=
  claim_C5.1 onePolicy 0 (initSession oneNode []) ⟨"W1", 999, 1⟩ (by
    norm_num [initSession, map_virtual_node, eligLoop, featureRow,
      get_node_features_matrix, get_distance_correlation, shortestDistances,
      bfsLoop, bfsVisit, build_adjacency_list, get_node_computing_resources,
      get_adjacent_link_bandwidth, get_node_security, get_time_correlation,
      onePolicy, oneNode, List.getD, List.range_succ, List.replicate])

/-! ### Claim C9: mapped nodes stay eligible -/

/-- Claim C9: eligibility depends only on the current CPU capacity against
the requirement — the mapped set is not an input of the filter, so a node
that meets the capacity test is eligible no matter how often it was already
selected.  Concretely, a capacity-20 node serves two successive requirement-5
virtual nodes of the same request: it is selected again after already being
in the mapped set. -/
theorem claim_C9 :
    (∀ (fs : List NodeFeature) (policy : List (List Rat) → List Rat)
      (req : Rat) (ns : List Nat) (ps : List Rat) (i : Nat) (f : NodeFeature),
      eligLoop fs (policy (fs.map featureRow)) req 0 = Except.ok (ns, ps) →
      fs[i]? = some f → req ≤ f.cpuResources → i ∈ ns)
    ∧ (sessionStep onePolicy 0 (initSession bigNode [])
        ⟨"Virtual_Node_1", 5, 1⟩).map (fun st => st.mapped_nodes) = Except.ok [0]
    ∧ (runSession onePolicy [0, 0] bigNode [] [⟨"Virtual_Node_1", 5, 1⟩,
      ⟨"Virtual_Node_2", 5, 1⟩]).map (fun st => st.mapping_results) =
      Except.ok [("Virtual_Node_1", "Node_0"), ("Virtual_Node_2", "Node_0")]
    ∧ (runSession onePolicy [0, 0] bigNode [] [⟨"Virtual_Node_1", 5, 1⟩,
      ⟨"Virtual_Node_2", 5, 1⟩]).map (fun st => st.mapped_nodes) =
      Except.ok [0, 0] := by
  refine ⟨fun fs policy req ns ps i f he hf hc =>
    (eligLoop_mem he i).mpr ⟨i, f, hf, hc, by omega⟩, ?_, ?_, ?_⟩ <;>
    norm_num [Except.map, runSession, runLoop, sessionStep, initSession,
      map_virtual_node, eligLoop, featureRow, normalizeProbs, deductCapacity,
      get_node_features_matrix, get_distance_correlation, shortestDistances,
      bfsLoop, bfsVisit, build_adjacency_list, get_node_computing_resources,
      get_adjacent_link_bandwidth, get_node_security, get_time_correlation,
      onePolicy, bigNode, List.getD, List.range_succ, List.replicate]

/-- Witness for claim C9: at the spec example capacities 10, 5, 20 with
requirement 8, node 2 meets the capacity test and is in the eligible
subset. -/
theorem claim_C9_witness : (2 : Nat) ∈ ([0, 2] : List Nat) := by
  have he : eligLoop (get_node_features_matrix c3Nodes [] [])
      (uniPolicy ((get_node_features_matrix c3Nodes [] []).map featureRow)) 8 0 =
      Except.ok ([0, 2], [1, 1]) := by
    norm_num [eligLoop, featureRow, get_node_features_matrix,
      get_distance_correlation, shortestDistances, bfsLoop, bfsVisit,
      build_adjacency_list, get_node_computing_resources,
      get_adjacent_link_bandwidth, get_node_security, get_time_correlation,
      uniPolicy, c3Nodes, List.getD, List.range_succ, List.replicate]
  have hf : (get_node_features_matrix c3Nodes [] [])[2]? =
      some ⟨"node_" ++ toString 2, 20, 0, 0, 0, 1⟩ := by
    norm_num [get_node_features_matrix, get_distance_correlation,
      shortestDistances, bfsLoop, bfsVisit, build_adjacency_list,
      get_node_computing_resources, get_adjacent_link_bandwidth,
      get_node_security, get_time_correlation, c3Nodes, List.getD,
      List.range_succ, List.replicate]
  exact claim_C9.1 (get_node_features_matrix c3Nodes [] []) uniPolicy 8
    [0, 2] [1, 1] 2 ⟨"node_" ++ toString 2, 20, 0, 0, 0, 1⟩ he hf (by norm_num)

end RlSmartGrid
